import Mathlib

/-!
Verification of the forecasting-and-alerting core of `dashboardLSTMPro.py`
(IndustrialDashboard). Numeric values (pressures, scaled values, seconds) are
modelled as rationals; timestamps as integers (seconds); the opaque LSTM model
is a parameter `model : List ℚ → ℚ` mapping a window to its one-step
prediction. The definitions below follow the Python source; line references
are to `src/dashboardLSTMPro.py`.
-/

namespace Dashboard

/-! ## Normalizer -/

/-- Modelled from the spec: the Normalizer is sklearn's `MinMaxScaler`
(feature range (0,1)) fitted at line 722-723; its implementation is library
code, not part of this repository. Spec §4.1: the fitted state is the
(min, max) of the series values. -/
structure NormalizationState where
  min : ℚ
  max : ℚ
deriving DecidableEq, Repr

/-- Minimum of a list of values (0 for the empty list, which the pipeline
never feeds to the scaler). -/
def listMin : List ℚ → ℚ
  | [] => 0
  | a :: t => t.foldl Min.min a

/-- Maximum of a list of values (0 for the empty list). -/
def listMax : List ℚ → ℚ
  | [] => 0
  | a :: t => t.foldl Max.max a

/-- Modelled from the spec: `fit(series)` computes min/max over all values
(spec §4.1); realized in the source by `scaler.fit_transform(data)` at
line 723. -/
def fit (series : List ℚ) : NormalizationState :=
  ⟨listMin series, listMax series⟩

/-- Modelled from the spec: `transform(state, value) = (value-min)/(max-min)`;
if max == min (constant series) the scaled value is 0 for all inputs
(spec §4.1 documented degenerate case). -/
def transform (st : NormalizationState) (v : ℚ) : ℚ :=
  if st.max = st.min then 0 else (v - st.min) / (st.max - st.min)

/-- Modelled from the spec: `inverse(state, scaled) = scaled*(max-min)+min`;
if max == min, inverse returns min (spec §4.1). Realized in the source by
`scaler.inverse_transform` (lines 747-748, 829). -/
def inverse (st : NormalizationState) (s : ℚ) : ℚ :=
  if st.max = st.min then st.min else s * (st.max - st.min) + st.min

/-! ## Windower (src 733-739, `create_sequences`) -/

/-- src 733-739: `create_sequences(data, seq_length)` returns the parallel
lists (sequences, targets): for `i in range(len(data) - seq_length)`,
sequence i is `data[i:i+seq_length]` and target i is `data[i+seq_length]`.
Natural-number subtraction renders Python's empty `range` when
`len(data) ≤ seq_length`. -/
def create_sequences (data : List ℚ) (seqLength : ℕ) : List (List ℚ) × List ℚ :=
  ((List.range (data.length - seqLength)).map (fun i => (data.drop i).take seqLength),
   (List.range (data.length - seqLength)).map (fun i => data.getD (i + seqLength) 0))

/-! ## Autoregressive forecaster (src 806-830, `predict_future`) -/

/-- src 814-826: state of the forecast loop after `k` iterations:
`(predicted_values, current_sequence)`. Each iteration predicts from the
current buffer, appends the prediction to the output list, and slides the
buffer (`np.append(current_sequence[1:], next_pred)`). -/
def forecast_state (model : List ℚ → ℚ) (lastSequence : List ℚ) : ℕ → List ℚ × List ℚ
  | 0 => ([], lastSequence)
  | k + 1 =>
    let prev := forecast_state model lastSequence k
    let nextPred := model prev.2
    (prev.1 ++ [nextPred], prev.2.drop 1 ++ [nextPred])

/-- src 806-830: `predict_future` runs the loop `future_steps` times and
inverse-transforms the whole output list. -/
def predict_future (model : List ℚ → ℚ) (st : NormalizationState)
    (lastSequence : List ℚ) (futureSteps : ℕ) : List ℚ :=
  ((forecast_state model lastSequence futureSteps).1).map (inverse st)

/-- src 843-845: `pd.date_range(start=last_timestamp + timedelta(hours=1),
periods=future_steps, freq='H')` — timestamps in seconds: the i-th generated
timestamp is `last + 3600*(i+1)`; the step is the fixed constant 3600 s
(one hour). -/
def future_timestamps (lastTimestamp : ℤ) (futureSteps : ℕ) : List ℤ :=
  (List.range futureSteps).map (fun (i : ℕ) => lastTimestamp + 3600 * ((i : ℤ) + 1))

/-! ## Evaluator (src 744-772) -/

/-- src 755-759: when the actual and predicted test arrays have different
lengths, both (and the test timestamps) are truncated to the shorter length;
no error is raised. -/
def truncate_to_match (actual pred : List ℚ) (ts : List ℤ) :
    List ℚ × List ℚ × List ℤ :=
  if actual.length ≠ pred.length then
    let m := Min.min actual.length pred.length
    (actual.take m, pred.take m, ts.take m)
  else (actual, pred, ts)

/-- src 762: `mean_squared_error` over the aligned pairs. -/
def mean_squared_error (a p : List ℚ) : ℚ :=
  (((a.zip p).map (fun x => (x.1 - x.2) ^ 2)).sum) / (a.length : ℚ)

/-- src 763: `mean_absolute_error` over the aligned pairs. -/
def mean_absolute_error (a p : List ℚ) : ℚ :=
  (((a.zip p).map (fun x => |x.1 - x.2|)).sum) / (a.length : ℚ)

/-- The R² combination rule: 1 - ssRes/ssTot, with sklearn's zero-variance
fallback (1 when both sums are 0, else 0 when ssTot = 0). -/
def r2_of_sums (ssRes ssTot : ℚ) : ℚ :=
  if ssTot = 0 then (if ssRes = 0 then 1 else 0) else 1 - ssRes / ssTot

/-- src 764: `r2_score` over the aligned pairs. -/
def r2_score (a p : List ℚ) : ℚ :=
  let mu := a.sum / (a.length : ℚ)
  r2_of_sums (((a.zip p).map (fun x => (x.1 - x.2) ^ 2)).sum)
    ((a.map (fun x => (x - mu) ^ 2)).sum)

/-- src 767: the fixed accuracy tolerance (`accuracy_tolerance = 0.01`). -/
def accuracy_tolerance : ℚ := 1 / 100

/-- src 768: percentage of aligned pairs whose absolute error is within the
tolerance (`np.mean(np.abs(a - p) <= tol) * 100`). -/
def tolerance_accuracy (a p : List ℚ) (tol : ℚ) : ℚ :=
  (((a.zip p).filter (fun x => |x.1 - x.2| ≤ tol)).length : ℚ) / (a.length : ℚ) * 100

/-- Result of the test-evaluation section (src 744-772). `arrays` holds
`(actual_test_inv, predictions_on_test_inv, test_timestamps)` after the
alignment step; it is `none` when the `len(X_test) > 0` branch is skipped, in
which case those Python variables are left unbound. `insufficientWarning`
models the `st.warning("Insufficient data for testing. Metrics set to 0. ...")`
call at line 772. -/
structure TestEval where
  arrays : Option (List ℚ × List ℚ × List ℤ)
  mse : ℚ
  mae : ℚ
  r2 : ℚ
  accuracy : ℚ
  insufficientWarning : Bool
deriving DecidableEq, Repr

/-- src 742-772: build test windows from the held-out data, predict on them,
inverse-transform, align, and compute the metrics; when no test window can be
formed, zero all metrics and flag insufficiency. -/
def run_test_evaluation (model : List ℚ → ℚ) (st : NormalizationState)
    (testData : List ℚ) (seqLength : ℕ) (testTimestamps : List ℤ) : TestEval :=
  let seqs := create_sequences testData seqLength
  let xTest := seqs.1
  let yTest := seqs.2
  if 0 < xTest.length then
    let predictionsOnTestInv := (xTest.map model).map (inverse st)
    let actualTestInv := yTest.map (inverse st)
    let aligned := truncate_to_match actualTestInv predictionsOnTestInv testTimestamps
    { arrays := some aligned,
      mse := mean_squared_error aligned.1 aligned.2.1,
      mae := mean_absolute_error aligned.1 aligned.2.1,
      r2 := r2_score aligned.1 aligned.2.1,
      accuracy := tolerance_accuracy aligned.1 aligned.2.1 accuracy_tolerance,
      insufficientWarning := false }
  else
    { arrays := none, mse := 0, mae := 0, r2 := 0, accuracy := 0,
      insufficientWarning := true }

/-! ## Status engine (src 851-876) -/

/-- The three-state verdict (`system_status` strings in the source). -/
inductive Status where
  | OPERATIONAL
  | WARNING
  | CRITICAL
deriving DecidableEq, Repr

/-- src 863-867: linear scan over the forecast horizon (value, timestamp)
pairs; the first point with `val >= threshold` sets `predicted_breach_time`
to its timestamp and the loop breaks; `none` when no point reaches the
threshold. -/
def find_breach (thr : ℚ) : List (ℚ × ℤ) → Option ℤ
  | [] => none
  | pt :: rest => if pt.1 ≥ thr then some pt.2 else find_breach thr rest

/-- src 869-876: the verdict precedence. CRITICAL when the current pressure
or the nearest prediction strictly exceeds the threshold; else WARNING when
either strictly exceeds 0.8·threshold or a predicted breach time was found;
else OPERATIONAL. -/
def compute_status (current predictedNow thr : ℚ) (breach : Option ℤ) : Status :=
  if current > thr ∨ predictedNow > thr then Status.CRITICAL
  else if current > thr * 0.8 ∨ predictedNow > thr * 0.8 ∨ breach.isSome = true then
    Status.WARNING
  else Status.OPERATIONAL

/-- src 851-876: the status section of a run. `current_pressure` is the last
ground-truth value (0 when empty, line 851). Line 855 reads
`predictions_on_test_inv`, which is unbound when the test-evaluation branch
was skipped: the run then halts with an UnboundLocalError before any verdict
is assigned. Otherwise `predicted_pressure_now` is the last aligned test
prediction (0 when empty), the breach scan runs over the forecast horizon,
and the verdict is computed. -/
def status_section (groundTruthAll : List ℚ) (te : TestEval)
    (futureInv : List ℚ) (futureTs : List ℤ) (thr : ℚ) :
    Except String (Status × Option ℤ) :=
  let current := groundTruthAll.getLastD 0
  match te.arrays with
  | none =>
    Except.error "UnboundLocalError: predictions_on_test_inv referenced before assignment"
  | some arrays =>
    let predictedNow := arrays.2.1.getLastD 0
    let breach := find_breach thr (futureInv.zip futureTs)
    Except.ok (compute_status current predictedNow thr breach, breach)

/-! ## Update scheduler (src 159-186) -/

/-- The scheduler state: `last_update_time`, `update_interval` (seconds) and
`auto_update_enabled` from the session state. Times are seconds as rationals
(`total_seconds()` differences). -/
structure UpdateClock where
  lastUpdate : ℚ
  interval : ℚ
  enabled : Bool
deriving DecidableEq, Repr

/-- src 159-171: `check_and_update` triggers a refresh iff the elapsed time
since the last update reaches the interval and auto-update is enabled; on
trigger it sets `last_update_time = now` (and invalidates the cache /
reruns, not modelled). Returns (triggered?, new clock). -/
def check_and_update (clock : UpdateClock) (now : ℚ) : Bool × UpdateClock :=
  if now - clock.lastUpdate ≥ clock.interval ∧ clock.enabled = true then
    (true, { clock with lastUpdate := now })
  else (false, clock)

/-- The refresh-trigger condition of `check_and_update` (src 167). -/
def should_refresh (clock : UpdateClock) (now : ℚ) : Bool :=
  (check_and_update clock now).1

/-- src 176-177: the remaining time computed by `format_time_remaining`:
`update_interval - (now - last_update_time)`. -/
def time_remaining_seconds (clock : UpdateClock) (now : ℚ) : ℚ :=
  clock.interval - (now - clock.lastUpdate)

/-- src 179-180: `format_time_remaining` reports "Update pending..."
exactly when the remaining time is ≤ 0. -/
def update_pending (clock : UpdateClock) (now : ℚ) : Bool :=
  decide (time_remaining_seconds clock now ≤ 0)

/-- The duration reported by `format_time_remaining`: 0 ("Update pending...")
when the remaining time is ≤ 0, otherwise the positive remainder that is
formatted as hh:mm:ss (src 179-186). -/
def time_remaining_reported (clock : UpdateClock) (now : ℚ) : ℚ :=
  if time_remaining_seconds clock now ≤ 0 then 0 else time_remaining_seconds clock now

/-! ## Helper lemmas -/

/-- When the series does not exceed the window length, no window is formed. -/
lemma create_sequences_eq_nil (data : List ℚ) (seqLength : ℕ)
    (h : data.length ≤ seqLength) : create_sequences data seqLength = ([], []) := by
  simp [create_sequences, Nat.sub_eq_zero_of_le h]

/-- The scan misses iff every forecast value is strictly below the threshold. -/
lemma find_breach_eq_none_iff (thr : ℚ) (pts : List (ℚ × ℤ)) :
    find_breach thr pts = none ↔ ∀ pt ∈ pts, pt.1 < thr := by
  induction pts with
  | nil => simp [find_breach]
  | cons a rest ih =>
    by_cases hc : a.1 ≥ thr
    · simp only [find_breach, if_pos hc]
      constructor
      · intro h; exact absurd h (by simp)
      · intro h; exact absurd (h a (by simp)) (not_lt.mpr hc)
    · simp only [find_breach, if_neg hc, ih, List.mem_cons]
      constructor
      · intro h pt hpt
        rcases hpt with hpt | hpt
        · exact hpt ▸ not_le.mp hc
        · exact h pt hpt
      · intro h pt hpt; exact h pt (Or.inr hpt)

/-- A hit of the scan is the first point (in list order) reaching the
threshold. -/
lemma find_breach_some_spec (thr : ℚ) (pts : List (ℚ × ℤ)) (t : ℤ)
    (h : find_breach thr pts = some t) :
    ∃ i, i < pts.length ∧ (pts.getD i (0, 0)).2 = t ∧
      thr ≤ (pts.getD i (0, 0)).1 ∧
      ∀ j, j < i → (pts.getD j (0, 0)).1 < thr := by
  induction pts with
  | nil => simp [find_breach] at h
  | cons a rest ih =>
    by_cases hc : a.1 ≥ thr
    · rw [find_breach, if_pos hc] at h
      refine ⟨0, by simp, by simpa using (Option.some.inj h), by simpa using hc, ?_⟩
      intro j hj; omega
    · rw [find_breach, if_neg hc] at h
      obtain ⟨i, hi, h2, h3, h4⟩ := ih h
      refine ⟨i + 1, by simpa using hi, by simpa using h2, by simpa using h3, ?_⟩
      intro j hj
      cases j with
      | zero => simpa using not_le.mp hc
      | succ j => simpa using h4 j (by omega)

/-- The scan hits the first listed point whose value reaches the threshold. -/
lemma find_breach_first_eq (thr : ℚ) (t : ℤ) (pre suf : List (ℚ × ℤ))
    (h : ∀ pt ∈ pre, pt.1 < thr) :
    find_breach thr (pre ++ (thr, t) :: suf) = some t := by
  induction pre with
  | nil => simp [find_breach]
  | cons a rest ih =>
    have ha : a.1 < thr := h a (by simp)
    simp only [List.cons_append, find_breach, if_neg (not_le.mpr ha)]
    exact ih (fun pt hpt => h pt (by simp [hpt]))

/-- The forecast loop emits one prediction per iteration. -/
lemma forecast_preds_length (model : List ℚ → ℚ) (seed : List ℚ) :
    ∀ k, (forecast_state model seed k).1.length = k := by
  intro k
  induction k with
  | zero => rfl
  | succ k ih => simp [forecast_state, ih]

/-- After k iterations the buffer is the seed extended by the emitted
predictions, with its first k values dropped. -/
lemma forecast_buffer_rep (model : List ℚ → ℚ) (seed : List ℚ)
    (hs : 0 < seed.length) :
    ∀ k, (forecast_state model seed k).2 =
      (seed ++ (forecast_state model seed k).1).drop k := by
  intro k
  induction k with
  | zero => simp [forecast_state]
  | succ k ih =>
    have hlen : k + 1 ≤ (seed ++ (forecast_state model seed k).1).length := by
      simp only [List.length_append, forecast_preds_length]
      omega
    simp only [forecast_state]
    rw [ih, List.drop_drop, ← List.append_assoc,
        List.drop_append_of_le_length hlen]

/-! ## Claims -/

/-- Claim C1: the verdict is CRITICAL whenever the current value or the
nearest prediction strictly exceeds the threshold; in particular a
current-value breach dominates regardless of the prediction and of the
forecast horizon (the breach argument is universally quantified). -/
theorem breach_now_is_critical (current predictedNow thr : ℚ) (breach : Option ℤ)
    (h : current > thr ∨ predictedNow > thr) :
    compute_status current predictedNow thr breach = Status.CRITICAL := by
  simp only [compute_status, if_pos h]

/-- Witness for C1 at current_value = 0.20, threshold = 0.14. -/
theorem breach_now_is_critical_witness :
    compute_status 0.20 0.10 0.14 none = Status.CRITICAL :=
  breach_now_is_critical 0.20 0.10 0.14 none (Or.inl (by norm_num))

/-- Claim C2: the predicted-breach scan returns the timestamp of the first
forecast point (in list = timestamp order) whose value is ≥ threshold, and
none when no point reaches it; when neither the current value nor the nearest
prediction exceeds the threshold but a breach point exists, the verdict is
WARNING and the breach time is that first point's timestamp. -/
theorem predicted_breach_scan_warning (thr current predictedNow : ℚ)
    (pts : List (ℚ × ℤ)) :
    (find_breach thr pts = none ↔ ∀ pt ∈ pts, pt.1 < thr) ∧
    (∀ t, find_breach thr pts = some t →
      ∃ i, i < pts.length ∧ (pts.getD i (0, 0)).2 = t ∧
        thr ≤ (pts.getD i (0, 0)).1 ∧
        ∀ j, j < i → (pts.getD j (0, 0)).1 < thr) ∧
    (current ≤ thr → predictedNow ≤ thr →
      ∀ t, find_breach thr pts = some t →
        compute_status current predictedNow thr (find_breach thr pts) =
          Status.WARNING) := by
  refine ⟨find_breach_eq_none_iff thr pts,
    fun t => find_breach_some_spec thr pts t, ?_⟩
  intro h1 h2 t ht
  have hno : ¬(current > thr ∨ predictedNow > thr) := by
    rintro (hc | hc)
    · exact absurd hc (not_lt.mpr h1)
    · exact absurd hc (not_lt.mpr h2)
  rw [ht]
  simp only [compute_status]
  rw [if_neg hno, if_pos (Or.inr (Or.inr (by simp)))]

/-- Witness for C2: current 0.10, prediction 0.10, threshold 0.14, one
horizon point at 0.14: verdict WARNING via the scan. -/
theorem predicted_breach_scan_warning_witness :
    compute_status 0.10 0.10 0.14 (find_breach 0.14 [(0.10, 100), (0.14, 200)]) =
      Status.WARNING :=
  (predicted_breach_scan_warning 0.14 0.10 0.10 [(0.10, 100), (0.14, 200)]).2.2
    (by norm_num) (by norm_num) 200 (by norm_num [find_breach])

/-- Claim C3 counterexample: with actual test values [0, 0, 5] and only two
predictions [0, 0] (unequal lengths), the pipeline raises no error: it
silently truncates both arrays (and the timestamps) to the shorter length,
discarding the actual value 5, and proceeds to the metrics. -/
theorem mismatch_silently_truncated :
    truncate_to_match [0, 0, 5] [0, 0] [10, 20, 30] = ([0, 0], [0, 0], [10, 20]) ∧
    (truncate_to_match [0, 0, 5] [0, 0] [10, 20, 30]).1 ≠ [0, 0, 5] := by
  constructor <;> decide

/-- Claim C3 (amended): on unequal-length actuals and predictions the
evaluation step does not fail: it silently truncates both inputs (and the
test timestamps) to the shorter length and computes the metrics over the
truncated pair; no length-mismatch error is raised. -/
theorem mismatch_truncates_to_shorter (actual pred : List ℚ) (ts : List ℤ)
    (h : actual.length ≠ pred.length) :
    truncate_to_match actual pred ts =
      (actual.take (Min.min actual.length pred.length),
       pred.take (Min.min actual.length pred.length),
       ts.take (Min.min actual.length pred.length)) ∧
    (truncate_to_match actual pred ts).1.length =
      Min.min actual.length pred.length ∧
    (truncate_to_match actual pred ts).2.1.length =
      Min.min actual.length pred.length := by
  refine ⟨by simp [truncate_to_match, h], ?_, ?_⟩ <;>
    · simp only [truncate_to_match, if_pos h, List.length_take]
      omega

/-- Witness for the amended C3. -/
theorem mismatch_truncates_to_shorter_witness :
    (truncate_to_match [0, 0, 5] [0, 0] [10, 20, 30]).1.length = 2 :=
  (mismatch_truncates_to_shorter [0, 0, 5] [0, 0] [10, 20, 30] (by norm_num)).2.1

/-- Claim C4: when the held-out data cannot form a single evaluation window,
the metrics are zeroed and the insufficient-data warning is surfaced
(non-fatal signal, src 770-772), and the run then halts in the status section
(the unbound predictions variable, src 855) before any verdict is produced:
no verdict is emitted from such a run. -/
theorem insufficient_data_no_verdict (model : List ℚ → ℚ)
    (st : NormalizationState) (testData : List ℚ) (seqLength : ℕ)
    (testTs : List ℤ) (groundTruthAll futureInv : List ℚ) (futureTs : List ℤ)
    (thr : ℚ) (h : testData.length ≤ seqLength) :
    (run_test_evaluation model st testData seqLength testTs).insufficientWarning
        = true ∧
    (run_test_evaluation model st testData seqLength testTs).mse = 0 ∧
    (run_test_evaluation model st testData seqLength testTs).mae = 0 ∧
    (run_test_evaluation model st testData seqLength testTs).r2 = 0 ∧
    (run_test_evaluation model st testData seqLength testTs).accuracy = 0 ∧
    status_section groundTruthAll
        (run_test_evaluation model st testData seqLength testTs)
        futureInv futureTs thr =
      Except.error
        "UnboundLocalError: predictions_on_test_inv referenced before assignment" := by
  have hseq := create_sequences_eq_nil testData seqLength h
  have hrun : run_test_evaluation model st testData seqLength testTs =
      { arrays := none, mse := 0, mae := 0, r2 := 0, accuracy := 0,
        insufficientWarning := true } := by
    simp [run_test_evaluation, hseq]
  rw [hrun]
  exact ⟨rfl, rfl, rfl, rfl, rfl, rfl⟩

/-- Witness for C4: two held-out points with window length 5. -/
theorem insufficient_data_no_verdict_witness :
    (run_test_evaluation (fun _ => 0) ⟨0, 1⟩ [1, 2] 5 []).insufficientWarning
        = true ∧
    status_section [1, 2] (run_test_evaluation (fun _ => 0) ⟨0, 1⟩ [1, 2] 5 [])
        [] [] 0.14 =
      Except.error
        "UnboundLocalError: predictions_on_test_inv referenced before assignment" :=
  ⟨(insufficient_data_no_verdict (fun _ => 0) ⟨0, 1⟩ [1, 2] 5 [] [1, 2] [] []
      0.14 (by norm_num)).1,
   (insufficient_data_no_verdict (fun _ => 0) ⟨0, 1⟩ [1, 2] 5 [] [1, 2] [] []
      0.14 (by norm_num)).2.2.2.2.2⟩

/-- Claim C5 counterexample: for an input series with timestamps 0 and 7200
(a two-hour cadence, last reading at 7200), the generated forecast timestamps
are 10800 and 14400 — one fixed hour (3600 s) apart — not one cadence step
(7200 s) apart starting at 14400 as the claim asserts. -/
theorem future_timestamps_ignore_cadence :
    future_timestamps 7200 2 = [10800, 14400] ∧
    future_timestamps 7200 2 ≠ [7200 + (7200 - 0), 7200 + 2 * (7200 - 0)] := by
  constructor <;> decide

/-- Claim C5 (amended): for every seed window and horizon the forecast output
has exactly horizon_steps values, and the generated timestamps start exactly
3600 s (one hour) after the last known reading and strictly increase by
3600 s each step — a fixed hourly step independent of the input series'
cadence. -/
theorem forecast_shape (model : List ℚ → ℚ) (st : NormalizationState)
    (seed : List ℚ) (steps : ℕ) (lastTs : ℤ) :
    (predict_future model st seed steps).length = steps ∧
    (future_timestamps lastTs steps).length = steps ∧
    (∀ i, i < steps →
      (future_timestamps lastTs steps).getD i 0 = lastTs + 3600 * ((i : ℤ) + 1)) ∧
    (∀ i, i + 1 < steps →
      (future_timestamps lastTs steps).getD (i + 1) 0 =
        (future_timestamps lastTs steps).getD i 0 + 3600) := by
  have hget : ∀ i, i < steps →
      (future_timestamps lastTs steps).getD i 0 = lastTs + 3600 * ((i : ℤ) + 1) := by
    intro i hi
    rw [future_timestamps, List.getD_eq_getElem?_getD, List.getElem?_map,
      List.getElem?_range hi]
    rfl
  refine ⟨?_, ?_, hget, ?_⟩
  · simp [predict_future, forecast_preds_length]
  · rw [future_timestamps, List.length_map, List.length_range]
  · intro i hi
    rw [hget (i + 1) hi, hget i (by omega)]
    push_cast
    ring

/-- Witness for the amended C5. -/
theorem forecast_shape_witness :
    (predict_future (fun _ => 0) ⟨0, 1⟩ [1, 2] 4).length = 4 ∧
    (future_timestamps 7200 4).getD 0 0 = 7200 + 3600 * ((0 : ℤ) + 1) :=
  ⟨(forecast_shape (fun _ => 0) ⟨0, 1⟩ [1, 2] 4 7200).1,
   (forecast_shape (fun _ => 0) ⟨0, 1⟩ [1, 2] 4 7200).2.2.1 0 (by norm_num)⟩

/-- Claim C6: throughout the forecast loop the sliding buffer keeps length
window_len: each iteration drops the oldest element and appends the new
prediction, and the buffer fed to step k+1 is the last window_len values of
the seed window followed by the first k predictions (i.e. the concatenation
with its first k values dropped). -/
theorem sliding_buffer_invariant (model : List ℚ → ℚ) (seed : List ℚ)
    (windowLen : ℕ) (hlen : seed.length = windowLen) (hpos : 0 < windowLen) :
    ∀ k, (forecast_state model seed (k + 1)).2 =
        (forecast_state model seed k).2.drop 1 ++
          [model (forecast_state model seed k).2] ∧
      (forecast_state model seed k).1.length = k ∧
      (forecast_state model seed k).2.length = windowLen ∧
      (forecast_state model seed k).2 =
        (seed ++ (forecast_state model seed k).1).drop k := by
  intro k
  have hp : 0 < seed.length := hlen ▸ hpos
  refine ⟨rfl, forecast_preds_length model seed k, ?_,
    forecast_buffer_rep model seed hp k⟩
  rw [forecast_buffer_rep model seed hp k]
  simp only [List.length_drop, List.length_append, forecast_preds_length, hlen]
  omega

/-- Witness for C6: seed of length 3, two steps. -/
theorem sliding_buffer_invariant_witness :
    (forecast_state (fun _ => 0) [1, 2, 3] 2).2.length = 3 :=
  (sliding_buffer_invariant (fun _ => 0) [1, 2, 3] 3 rfl (by norm_num) 2).2.2.1

/-- Claim C7: for a scaled series of length N and window length L,
create_sequences yields exactly N - L windows and targets when L < N, window
i covering indices [i, i+L) and target i being the value at index i+L, in
input order; both lists are empty when N ≤ L. -/
theorem windows_spec (data : List ℚ) (seqLength : ℕ) :
    (data.length ≤ seqLength → create_sequences data seqLength = ([], [])) ∧
    (seqLength < data.length →
      (create_sequences data seqLength).1.length = data.length - seqLength ∧
      (create_sequences data seqLength).2.length = data.length - seqLength ∧
      ∀ i, i < data.length - seqLength →
        ((create_sequences data seqLength).1.getD i []).length = seqLength ∧
        (∀ j, j < seqLength →
          ((create_sequences data seqLength).1.getD i []).getD j 0 =
            data.getD (i + j) 0) ∧
        (create_sequences data seqLength).2.getD i 0 =
          data.getD (i + seqLength) 0) := by
  refine ⟨create_sequences_eq_nil data seqLength, ?_⟩
  intro hN
  refine ⟨by simp [create_sequences], by simp [create_sequences], ?_⟩
  intro i hi
  have hwin : (create_sequences data seqLength).1.getD i [] =
      (data.drop i).take seqLength := by
    simp [create_sequences, List.getD_eq_getElem?_getD, List.getElem?_range hi]
  refine ⟨?_, ?_, ?_⟩
  · rw [hwin]
    simp only [List.length_take, List.length_drop]
    omega
  · intro j hj
    rw [hwin]
    simp [List.getD_eq_getElem?_getD, List.getElem?_take_of_lt hj,
      List.getElem?_drop]
  · simp [create_sequences, List.getD_eq_getElem?_getD, List.getElem?_range hi]

/-- Witness for C7: series [1, 2, 3] with window length 2, and the boundary
case of a too-short series. -/
theorem windows_spec_witness :
    (create_sequences [1, 2, 3] 2).1.length = 1 ∧
    create_sequences [4, 5] 7 = ([], []) :=
  ⟨((windows_spec [1, 2, 3] 2).2 (by norm_num)).1,
   (windows_spec [4, 5] 7).1 (by norm_num)⟩

/-- Claim C8: normalizer round trip: for a non-constant series (fitted
max ≠ min) inverse after transform is the identity on every value; for a
constant series (max = min) transform yields 0 on all inputs and inverse
returns min. -/
theorem normalizer_roundtrip (series : List ℚ) (v : ℚ) :
    ((fit series).max ≠ (fit series).min →
      inverse (fit series) (transform (fit series) v) = v) ∧
    ((fit series).max = (fit series).min →
      transform (fit series) v = 0 ∧
      inverse (fit series) (transform (fit series) v) = (fit series).min) := by
  constructor
  · intro h
    have hd : (fit series).max - (fit series).min ≠ 0 := sub_ne_zero.mpr h
    simp only [transform, inverse, if_neg h]
    field_simp
  · intro h
    simp [transform, inverse, h]

/-- Witness for C8: non-constant series [1, 3] and constant series [2, 2]. -/
theorem normalizer_roundtrip_witness :
    inverse (fit [1, 3]) (transform (fit [1, 3]) 3) = 3 ∧
    transform (fit [2, 2]) 5 = 0 :=
  ⟨(normalizer_roundtrip [1, 3] 3).1 (by decide),
   ((normalizer_roundtrip [2, 2] 5).2 (by decide)).1⟩

/-- Claim C9: the refresh trigger of check_and_update fires iff auto-update
is enabled and the elapsed time reaches the interval; the reported remaining
time equals max 0 (interval - elapsed); it reports 0 exactly when the update
is pending, and for an enabled clock exactly when a refresh is due. -/
theorem scheduler_refresh_spec (clock : UpdateClock) (now : ℚ) :
    (should_refresh clock now = true ↔
      clock.enabled = true ∧ clock.interval ≤ now - clock.lastUpdate) ∧
    (time_remaining_reported clock now =
      max 0 (clock.interval - (now - clock.lastUpdate))) ∧
    (update_pending clock now = true ↔ time_remaining_reported clock now = 0) ∧
    (clock.enabled = true →
      (time_remaining_reported clock now = 0 ↔ should_refresh clock now = true)) := by
  have hiff : should_refresh clock now = true ↔
      clock.enabled = true ∧ clock.interval ≤ now - clock.lastUpdate := by
    simp only [should_refresh, check_and_update]
    split_ifs with h
    · simp only [true_iff]
      exact ⟨h.2, h.1⟩
    · simp only [Bool.false_eq_true, false_iff]
      intro hc
      exact h ⟨hc.2, hc.1⟩
  have hrep : time_remaining_reported clock now =
      max 0 (clock.interval - (now - clock.lastUpdate)) := by
    simp only [time_remaining_reported, time_remaining_seconds]
    split_ifs with h
    · exact (max_eq_left h).symm
    · exact (max_eq_right (le_of_lt (not_le.mp h))).symm
  have hzero : time_remaining_reported clock now = 0 ↔
      clock.interval - (now - clock.lastUpdate) ≤ 0 := by
    simp only [time_remaining_reported, time_remaining_seconds]
    split_ifs with h
    · simp [h]
    · constructor
      · intro hc; exact absurd hc (by exact fun hc => h (le_of_eq hc))
      · intro hc; exact absurd hc h
  refine ⟨hiff, hrep, ?_, ?_⟩
  · rw [hzero]
    simp [update_pending, time_remaining_seconds]
  · intro he
    rw [hzero, hiff]
    constructor
    · intro hc; exact ⟨he, by linarith⟩
    · intro hc; linarith [hc.2]

/-- Witness for C9: interval 3600 s, last update 4000 s before now, enabled:
refresh due and remaining time reported 0. -/
theorem scheduler_refresh_spec_witness :
    should_refresh ⟨0, 3600, true⟩ 4000 = true ∧
    time_remaining_reported ⟨0, 3600, true⟩ 4000 = 0 :=
  ⟨((scheduler_refresh_spec ⟨0, 3600, true⟩ 4000).1).mpr ⟨rfl, by norm_num⟩,
   ((scheduler_refresh_spec ⟨0, 3600, true⟩ 4000).2.2.2 rfl).mpr
     (((scheduler_refresh_spec ⟨0, 3600, true⟩ 4000).1).mpr ⟨rfl, by norm_num⟩)⟩

/-- Claim C10: the boundary comparisons are asymmetric: a current value
exactly equal to the (positive) threshold, with the nearest prediction not
above it, yields WARNING, not CRITICAL (the CRITICAL tests are strict);
while a forecast value exactly equal to the threshold does count as a
predicted breach (the scan uses ≥) and alone suffices for WARNING with that
point's timestamp as the breach time. -/
theorem boundary_asymmetry (current predictedNow thr : ℚ) (hthr : 0 < thr) :
    (current = thr → predictedNow ≤ thr → ∀ breach : Option ℤ,
      compute_status current predictedNow thr breach = Status.WARNING ∧
      compute_status current predictedNow thr breach ≠ Status.CRITICAL) ∧
    (current ≤ thr → predictedNow ≤ thr →
      ∀ (pre suf : List (ℚ × ℤ)) (t : ℤ), (∀ pt ∈ pre, pt.1 < thr) →
        find_breach thr (pre ++ (thr, t) :: suf) = some t ∧
        compute_status current predictedNow thr
          (find_breach thr (pre ++ (thr, t) :: suf)) = Status.WARNING) := by
  constructor
  · intro hc hp breach
    subst hc
    have hno : ¬(current > current ∨ predictedNow > current) := by
      rintro (h | h)
      · exact absurd h (lt_irrefl current)
      · exact absurd h (not_lt.mpr hp)
    have h08 : current > current * 0.8 := by nlinarith
    have hw : compute_status current predictedNow current breach =
        Status.WARNING := by
      simp only [compute_status]
      rw [if_neg hno, if_pos (Or.inl h08)]
    exact ⟨hw, by rw [hw]; intro hcon; cases hcon⟩
  · intro hc hp pre suf t hpre
    have hfb := find_breach_first_eq thr t pre suf hpre
    refine ⟨hfb, ?_⟩
    have hno : ¬(current > thr ∨ predictedNow > thr) := by
      rintro (h | h)
      · exact absurd h (not_lt.mpr hc)
      · exact absurd h (not_lt.mpr hp)
    rw [hfb]
    simp only [compute_status]
    rw [if_neg hno, if_pos (Or.inr (Or.inr (by simp)))]

/-- Witness for C10: current value exactly at a threshold of 0.14, and a
horizon point exactly at the threshold. -/
theorem boundary_asymmetry_witness :
    compute_status 0.14 0.10 0.14 none = Status.WARNING ∧
    find_breach 0.14 ([(0.10, 100)] ++ (0.14, 200) :: []) = some 200 :=
  ⟨((boundary_asymmetry 0.14 0.10 0.14 (by norm_num)).1 rfl (by norm_num) none).1,
   ((boundary_asymmetry 0.14 0.10 0.14 (by norm_num)).2 (by norm_num) (by norm_num)
      [(0.10, 100)] [] 200 (by
        rintro pt hpt
        simp only [List.mem_singleton] at hpt
        rw [hpt]
        norm_num)).1⟩

end Dashboard
